import Mathlib

/-!
Shallow embedding of the cross-language logger adapter in `src/logging.rs`
of `rust-rocksdb`: the native shim logger (`RustLogger`, C++), the managed
wrapper (`CppLoggerWrapper`), and the `RocksDbLogger` trait with its default
method implementations (including `String::from_utf8_lossy` behaviour).
-/

/-- The `log` crate's `Level` enum (the managed-side level domain). -/
inductive LogLevel : Type
  | Error
  | Warn
  | Info
  | Debug
  | Trace
  deriving DecidableEq, Repr

/-- A call into the `RocksDbLogger` trait object made by
`CppLoggerWrapper::log` (either `log` or `log_header`). -/
inductive TraitCall : Type
  | log (level : LogLevel) (msg : List Nat)
  | log_header (msg : List Nat)
  deriving DecidableEq, Repr

/-- The level-code match in `CppLoggerWrapper::log` (src/logging.rs:141-147):
`0 => Debug, 1 => Info, 2 => Warn, 3 | 4 => Error, _ => Debug`. -/
def mapLevel (level : Int) : LogLevel :=
  if level = 0 then LogLevel.Debug
  else if level = 1 then LogLevel.Info
  else if level = 2 then LogLevel.Warn
  else if level = 3 ∨ level = 4 then LogLevel.Error
  else LogLevel.Debug

namespace CppLoggerWrapper

/-- `CppLoggerWrapper::log` (src/logging.rs:131-150): decodes the numeric
level and dispatches either `log_header` (level 5, `HEADER_LEVEL`) or `log`
with the converted level on the wrapped trait object.  The raw
pointer/length pair is modelled as the byte list `msg` it views. -/
def log (level : Int) (msg : List Nat) : TraitCall :=
  if level = 5 then TraitCall.log_header msg
  else TraitCall.log (mapLevel level) msg

end CppLoggerWrapper

/-- Outcome of the `vsnprintf` call in `RustLogger::Logv`: the returned
count `n` (negative on encoding failure, or the full untruncated length of
the formatted output) and the bytes that the dispatch would read from the
stack buffer (the first `n` bytes, when `0 ≤ n < 1024`). -/
structure FormatOutcome : Type where
  n : Int
  bytes : List Nat
  deriving DecidableEq, Repr

/-- The native shim logger state: the configured minimum severity
(`GetInfoLogLevel()`, an `InfoLogLevel` ordinal) and the stored
`rust_boxed_logger_` handle (`none` models the null pointer). -/
structure RustLogger : Type where
  log_level : Int
  rust_boxed_logger : Option Unit
  deriving DecidableEq, Repr

/-- A call across the boundary into `CppLoggerWrapper::log`: the raw level
code and the viewed bytes. -/
structure WrapperCall : Type where
  level : Int
  msg : List Nat
  deriving DecidableEq, Repr

/-- Observable behaviour of one `RustLogger::Logv` invocation: whether the
`vsnprintf` formatting call ran, and the list of boundary calls made into
the managed wrapper. -/
structure LogvResult : Type where
  formatted : Bool
  dispatched : List WrapperCall
  deriving DecidableEq, Repr

/-- `sizeof(msg)` in `RustLogger::Logv`: the fixed stack buffer size. -/
def bufferSize : Int := 1024

/-- `rocksdb::InfoLogLevel::INFO_LEVEL` (ordinal 1 in the native enum). -/
def INFO_LEVEL : Int := 1

namespace RustLogger

/-- The leveled `RustLogger::Logv` overload (src/logging.rs:55-75).
Returns early (no formatting, no dispatch) when `log_level` is below the
configured threshold; otherwise formats into the 1024-byte buffer and, when
`-1 < n < 1024`, crosses the boundary once — the rust! block itself skips
the dispatch when the stored handle is null. -/
def LogvLeveled (l : RustLogger) (log_level : Int) (fmt : FormatOutcome) :
    LogvResult :=
  if log_level < l.log_level then
    { formatted := false, dispatched := [] }
  else
    { formatted := true
      dispatched :=
        if fmt.n > -1 ∧ fmt.n < bufferSize then
          match l.rust_boxed_logger with
          | some _ => [{ level := log_level, msg := fmt.bytes }]
          | none => []
        else [] }

/-- The single-level `RustLogger::Logv` overload (src/logging.rs:50-53):
assumes the INFO level and delegates to the leveled overload. -/
def Logv (l : RustLogger) (fmt : FormatOutcome) : LogvResult :=
  l.LogvLeveled INFO_LEVEL fmt

/-- Observable behaviour of the `RustLogger` destructor (src/logging.rs:34-44):
the arguments of the `RustLogger_free_boxed_logger` boundary calls it makes
(each reclaims the box behind the passed handle), and the state left behind
(`rust_boxed_logger_ = nullptr`). -/
structure DtorResult : Type where
  freed : List (Option Unit)
  final : RustLogger
  deriving DecidableEq, Repr

/-- The `~RustLogger` destructor: one boundary call passing the stored
handle to be reclaimed, then the handle field is set to null. -/
def destruct (l : RustLogger) : DtorResult :=
  { freed := [l.rust_boxed_logger]
    final := { l with rust_boxed_logger := none } }

end RustLogger

/-! ### `String::from_utf8_lossy`

The default `RocksDbLogger::log` body calls `String::from_utf8_lossy` on the
byte slice.  We model it at the byte level, following the Rust standard
library: the input is scanned for well-formed UTF-8 scalar encodings; each
maximal invalid subpart (per `core::str`'s validation, which reports an
error length of 1, 2 or 3 bytes telling the lossy decoder how many bytes to
skip) is replaced by the three-byte encoding of U+FFFD. -/

/-- A UTF-8 continuation byte: `0x80 ≤ c ≤ 0xBF`. -/
abbrev utf8Cont (c : Nat) : Prop := 0x80 ≤ c ∧ c ≤ 0xBF

/-- Valid second byte for a three-byte lead `b` (`0xE0 ≤ b ≤ 0xEF`):
`0xE0` requires `0xA0..0xBF` (no overlong forms), `0xED` requires
`0x80..0x9F` (no surrogates), the rest a plain continuation byte. -/
abbrev utf8Cont3 (b c : Nat) : Prop :=
  if b = 0xE0 then 0xA0 ≤ c ∧ c ≤ 0xBF
  else if b = 0xED then 0x80 ≤ c ∧ c ≤ 0x9F
  else utf8Cont c

/-- Valid second byte for a four-byte lead `b` (`0xF0 ≤ b ≤ 0xF4`):
`0xF0` requires `0x90..0xBF` (no overlong forms), `0xF4` requires
`0x80..0x8F` (scalar value at most U+10FFFF), the rest a plain
continuation byte. -/
abbrev utf8Cont4 (b c : Nat) : Prop :=
  if b = 0xF0 then 0x90 ≤ c ∧ c ≤ 0xBF
  else if b = 0xF4 then 0x80 ≤ c ∧ c ≤ 0x8F
  else utf8Cont c

/-- One step of the UTF-8 scan, at first byte `b` with remaining input
`rest`: `(some bs, rem)` means the bytes `bs` (starting with `b`) encode a
scalar value and `rem` is the unconsumed input; `(none, rem)` means an
invalid subpart was found, and resuming at `rem` skips exactly the bytes
the Rust validator reports in `Utf8Error::error_len` (or the whole
incomplete tail at end of input). -/
def utf8Step (b : Nat) (rest : List Nat) : Option (List Nat) × List Nat :=
  if b < 0x80 then (some [b], rest)
  else if 0xC2 ≤ b ∧ b ≤ 0xDF then
    match rest with
    | [] => (none, [])
    | c :: rest2 =>
      if utf8Cont c then (some [b, c], rest2)
      else (none, c :: rest2)
  else if 0xE0 ≤ b ∧ b ≤ 0xEF then
    match rest with
    | [] => (none, [])
    | c :: rest2 =>
      if utf8Cont3 b c then
        match rest2 with
        | [] => (none, [])
        | d :: rest3 =>
          if utf8Cont d then (some [b, c, d], rest3)
          else (none, d :: rest3)
      else (none, c :: rest2)
  else if 0xF0 ≤ b ∧ b ≤ 0xF4 then
    match rest with
    | [] => (none, [])
    | c :: rest2 =>
      if utf8Cont4 b c then
        match rest2 with
        | [] => (none, [])
        | d :: rest3 =>
          if utf8Cont d then
            match rest3 with
            | [] => (none, [])
            | e :: rest4 =>
              if utf8Cont e then (some [b, c, d, e], rest4)
              else (none, e :: rest4)
          else (none, d :: rest3)
      else (none, c :: rest2)
  else (none, rest)

/-- The three UTF-8 bytes of the replacement character U+FFFD, substituted
by `from_utf8_lossy` for each invalid subpart. -/
def replacementBytes : List Nat := [0xEF, 0xBF, 0xBD]

/-- Byte-level model of `String::from_utf8_lossy`: well-formed scalar
encodings are copied through unchanged, each invalid subpart becomes
U+FFFD. -/
def from_utf8_lossy (l : List Nat) : List Nat :=
  match l with
  | [] => []
  | b :: rest =>
    (match (utf8Step b rest).1 with
     | some bs => bs
     | none => replacementBytes) ++ from_utf8_lossy (utf8Step b rest).2
termination_by l.length
decreasing_by
  simp only [List.length_cons]
  refine Nat.lt_succ_of_le ?_
  unfold utf8Step
  repeat' split
  all_goals simp_all [List.length_cons]
  all_goals omega

/-- UTF-8 well-formedness of a byte sequence (the predicate
`core::str::from_utf8(..).is_ok()` decides). -/
def validUtf8 (l : List Nat) : Bool :=
  match l with
  | [] => true
  | b :: rest =>
    match (utf8Step b rest).1 with
    | some _ => validUtf8 (utf8Step b rest).2
    | none => false
termination_by l.length
decreasing_by
  simp only [List.length_cons]
  refine Nat.lt_succ_of_le ?_
  unfold utf8Step
  repeat' split
  all_goals simp_all [List.length_cons]
  all_goals omega

/-- The `level, msg` arguments of a `log_str` call on the application
logger (the `&str` argument as its bytes). -/
structure LogStrCall : Type where
  level : LogLevel
  msg : List Nat
  deriving DecidableEq, Repr

namespace RocksDbLogger

/-- Default implementation of `RocksDbLogger::log` (src/logging.rs:99-106):
lossy-converts the byte slice and forwards it to `log_str` at the same
level.  Total: it yields a `log_str` call on every input. -/
def log (level : LogLevel) (msg : List Nat) : LogStrCall :=
  { level := level, msg := from_utf8_lossy msg }

/-- Default implementation of `RocksDbLogger::log_header`
(src/logging.rs:92-94): logs the header via `log` at the INFO level. -/
def log_header (header : List Nat) : LogStrCall :=
  log LogLevel.Info header

end RocksDbLogger

theorem utf8Step_len (b : Nat) (rest : List Nat) :
    (utf8Step b rest).2.length ≤ rest.length := by
  unfold utf8Step
  repeat' split
  all_goals simp_all [List.length_cons]
  all_goals omega

theorem validUtf8_nil : validUtf8 [] = true := by rw [validUtf8]

theorem validUtf8_cons (b : Nat) (rest : List Nat) :
    validUtf8 (b :: rest) =
      match (utf8Step b rest).1 with
      | some _ => validUtf8 (utf8Step b rest).2
      | none => false := by
  rw [validUtf8]

theorem lossy_nil : from_utf8_lossy [] = [] := by rw [from_utf8_lossy]

theorem lossy_cons (b : Nat) (rest : List Nat) :
    from_utf8_lossy (b :: rest) =
      (match (utf8Step b rest).1 with
       | some bs => bs
       | none => replacementBytes) ++ from_utf8_lossy (utf8Step b rest).2 := by
  rw [from_utf8_lossy]

theorem utf8Step_scalar {b : Nat} {rest bs rem : List Nat}
    (h : utf8Step b rest = (some bs, rem)) :
    ∃ t, bs = b :: t ∧ rest = t ++ rem ∧
      ∀ y, utf8Step b (t ++ y) = (some (b :: t), y) := by
  unfold utf8Step at h
  split at h
  next hb =>
    simp only [Prod.mk.injEq, Option.some.injEq] at h
    obtain ⟨rfl, rfl⟩ := h
    exact ⟨[], rfl, rfl, fun y => by simp [utf8Step, hb]⟩
  next hb1 =>
    split at h
    next hb2 =>
      split at h
      next => simp at h
      next c rest2 =>
        split at h
        next hc =>
          simp only [Prod.mk.injEq, Option.some.injEq] at h
          obtain ⟨rfl, rfl⟩ := h
          exact ⟨[c], rfl, rfl, fun y => by simp [utf8Step, hb1, hb2, hc]⟩
        next => simp at h
    next hb2 =>
      split at h
      next hb3 =>
        split at h
        next => simp at h
        next c rest2 =>
          split at h
          next hc =>
            split at h
            next => simp at h
            next d rest3 =>
              split at h
              next hd =>
                simp only [Prod.mk.injEq, Option.some.injEq] at h
                obtain ⟨rfl, rfl⟩ := h
                exact ⟨[c, d], rfl, rfl, fun y => by
                  simp [utf8Step, hb1, hb2, hb3, hc, hd]⟩
              next => simp at h
          next => simp at h
      next hb3 =>
        split at h
        next hb4 =>
          split at h
          next => simp at h
          next c rest2 =>
            split at h
            next hc =>
              split at h
              next => simp at h
              next d rest3 =>
                split at h
                next hd =>
                  split at h
                  next => simp at h
                  next e rest4 =>
                    split at h
                    next he =>
                      simp only [Prod.mk.injEq, Option.some.injEq] at h
                      obtain ⟨rfl, rfl⟩ := h
                      refine ⟨[c, d, e], rfl, rfl, fun y => ?_⟩
                      simp [utf8Step, hb1, hb2, hb3, hb4, hc]
                      rw [if_pos hd, if_pos he]
                    next => simp at h
                next => simp at h
            next => simp at h
        next => simp at h

theorem lossy_cons_scalar {b : Nat} {rest bs rem : List Nat}
    (h : utf8Step b rest = (some bs, rem)) :
    from_utf8_lossy (b :: rest) = bs ++ from_utf8_lossy rem := by
  rw [lossy_cons, h]

theorem lossy_cons_bad {b : Nat} {rest rem : List Nat}
    (h : utf8Step b rest = (none, rem)) :
    from_utf8_lossy (b :: rest) = replacementBytes ++ from_utf8_lossy rem := by
  rw [lossy_cons, h]

theorem validUtf8_cons_scalar {b : Nat} {rest bs rem : List Nat}
    (h : utf8Step b rest = (some bs, rem)) :
    validUtf8 (b :: rest) = validUtf8 rem := by
  rw [validUtf8_cons, h]

theorem validUtf8_cons_bad {b : Nat} {rest rem : List Nat}
    (h : utf8Step b rest = (none, rem)) :
    validUtf8 (b :: rest) = false := by
  rw [validUtf8_cons, h]

theorem utf8Step_repl (x : List Nat) :
    utf8Step 0xEF (0xBF :: 0xBD :: x) = (some [0xEF, 0xBF, 0xBD], x) := by
  norm_num [utf8Step, utf8Cont3, utf8Cont]

theorem validUtf8_repl_append (x : List Nat) :
    validUtf8 (replacementBytes ++ x) = validUtf8 x := by
  show validUtf8 (0xEF :: 0xBF :: 0xBD :: x) = validUtf8 x
  rw [validUtf8_cons_scalar (utf8Step_repl x)]

theorem validUtf8_lossy_aux :
    ∀ (n : Nat) (l : List Nat), l.length ≤ n →
      validUtf8 (from_utf8_lossy l) = true := by
  intro n
  induction n with
  | zero =>
    intro l hl
    have : l = [] := List.length_eq_zero.mp (Nat.le_zero.mp hl)
    subst this
    rw [lossy_nil, validUtf8_nil]
  | succ n ih =>
    intro l hl
    match l with
    | [] => rw [lossy_nil, validUtf8_nil]
    | b :: rest =>
      rcases hstep : utf8Step b rest with ⟨obs, rem⟩
      have hlen := utf8Step_len b rest
      rw [hstep] at hlen
      simp only [List.length_cons, Nat.succ_le_succ_iff] at hl
      cases obs with
      | none =>
        rw [lossy_cons_bad hstep, validUtf8_repl_append]
        exact ih rem (le_trans hlen hl)
      | some bs =>
        obtain ⟨t, ht, hr, hstep2⟩ := utf8Step_scalar hstep
        subst ht
        rw [lossy_cons_scalar hstep, List.cons_append,
          validUtf8_cons_scalar (hstep2 (from_utf8_lossy rem))]
        exact ih rem (le_trans hlen hl)

theorem validUtf8_lossy (l : List Nat) :
    validUtf8 (from_utf8_lossy l) = true :=
  validUtf8_lossy_aux l.length l le_rfl

theorem lossy_id_aux :
    ∀ (n : Nat) (l : List Nat), l.length ≤ n → validUtf8 l = true →
      from_utf8_lossy l = l := by
  intro n
  induction n with
  | zero =>
    intro l hl _
    have : l = [] := List.length_eq_zero.mp (Nat.le_zero.mp hl)
    subst this
    exact lossy_nil
  | succ n ih =>
    intro l hl hv
    match l with
    | [] => exact lossy_nil
    | b :: rest =>
      rcases hstep : utf8Step b rest with ⟨obs, rem⟩
      have hlen := utf8Step_len b rest
      rw [hstep] at hlen
      simp only [List.length_cons, Nat.succ_le_succ_iff] at hl
      cases obs with
      | none =>
        rw [validUtf8_cons_bad hstep] at hv
        exact absurd hv (by simp)
      | some bs =>
        rw [validUtf8_cons_scalar hstep] at hv
        obtain ⟨t, ht, hr, _⟩ := utf8Step_scalar hstep
        subst ht
        rw [lossy_cons_scalar hstep, ih rem (le_trans hlen hl) hv, hr,
          List.cons_append]

theorem lossy_id_of_valid {l : List Nat} (h : validUtf8 l = true) :
    from_utf8_lossy l = l :=
  lossy_id_aux l.length l le_rfl h

/-! ### Claim theorems -/

/-- Claim C1: for every native log call whose level is at or above the
configured threshold (with the formatted message fitting the buffer and the
stored handle non-null, the cases the spec treats separately), exactly one
dispatch into the application logger occurs, and the numeric level code is
mapped as 0 to Debug, 1 to Info, 2 to Warn, 3 and 4 both to Error, 5 to
`log_header` (which by default logs as Info), and any other value to
Debug. -/
theorem logv_above_threshold_single_dispatch_with_level_mapping
    (l : RustLogger) (log_level : Int) (fmt : FormatOutcome)
    (hthr : l.log_level ≤ log_level)
    (hfit : -1 < fmt.n ∧ fmt.n < bufferSize)
    (hptr : l.rust_boxed_logger ≠ none) :
    ((l.LogvLeveled log_level fmt).dispatched.map
        (fun c => CppLoggerWrapper.log c.level c.msg))
      = [CppLoggerWrapper.log log_level fmt.bytes]
    ∧ CppLoggerWrapper.log 0 fmt.bytes = TraitCall.log LogLevel.Debug fmt.bytes
    ∧ CppLoggerWrapper.log 1 fmt.bytes = TraitCall.log LogLevel.Info fmt.bytes
    ∧ CppLoggerWrapper.log 2 fmt.bytes = TraitCall.log LogLevel.Warn fmt.bytes
    ∧ CppLoggerWrapper.log 3 fmt.bytes = TraitCall.log LogLevel.Error fmt.bytes
    ∧ CppLoggerWrapper.log 4 fmt.bytes = TraitCall.log LogLevel.Error fmt.bytes
    ∧ CppLoggerWrapper.log 5 fmt.bytes = TraitCall.log_header fmt.bytes
    ∧ RocksDbLogger.log_header fmt.bytes = RocksDbLogger.log LogLevel.Info fmt.bytes
    ∧ (∀ v : Int, v ≠ 0 → v ≠ 1 → v ≠ 2 → v ≠ 3 → v ≠ 4 → v ≠ 5 →
        CppLoggerWrapper.log v fmt.bytes = TraitCall.log LogLevel.Debug fmt.bytes) := by
  obtain ⟨u, hu⟩ := Option.ne_none_iff_exists'.mp hptr
  refine ⟨?_, rfl, rfl, rfl, rfl, rfl, rfl, rfl, ?_⟩
  · simp [RustLogger.LogvLeveled, not_lt.mpr hthr, hfit, hu]
  · intro v h0 h1 h2 h3 h4 h5
    simp [CppLoggerWrapper.log, mapLevel, h0, h1, h2, h3, h4, h5]

/-- Witness for claim C1 at threshold 0, level code 1, a 2-byte message. -/
theorem logv_above_threshold_single_dispatch_with_level_mapping_witness :
    (RustLogger.mk 0 (some ())).log_level ≤ (1 : Int)
    ∧ ((-1 : Int) < 2 ∧ (2 : Int) < bufferSize)
    ∧ (RustLogger.mk 0 (some ())).rust_boxed_logger ≠ none
    ∧ ((RustLogger.mk 0 (some ())).LogvLeveled 1 ⟨2, [104, 105]⟩).dispatched.map
        (fun c => CppLoggerWrapper.log c.level c.msg)
      = [CppLoggerWrapper.log 1 [104, 105]] :=
  ⟨by decide, by decide, by decide,
    (logv_above_threshold_single_dispatch_with_level_mapping
      (RustLogger.mk 0 (some ())) 1 ⟨2, [104, 105]⟩
      (by decide) (by decide) (by decide)).1⟩

/-- Claim C2: a leveled log call strictly below the configured minimum
threshold is a no-op — the threshold comparison happens before any
formatting work (`formatted = false`) and nothing is dispatched. -/
theorem logv_below_threshold_noop
    (l : RustLogger) (log_level : Int) (fmt : FormatOutcome)
    (h : log_level < l.log_level) :
    l.LogvLeveled log_level fmt = { formatted := false, dispatched := [] } := by
  simp [RustLogger.LogvLeveled, h]

/-- Witness for claim C2: level code 0 against threshold 1. -/
theorem logv_below_threshold_noop_witness :
    (0 : Int) < (RustLogger.mk 1 (some ())).log_level
    ∧ (RustLogger.mk 1 (some ())).LogvLeveled 0 ⟨2, [104, 105]⟩
      = { formatted := false, dispatched := [] } :=
  ⟨by decide,
    logv_below_threshold_noop (RustLogger.mk 1 (some ())) 0 ⟨2, [104, 105]⟩
      (by decide)⟩

/-- Claim C3: when `vsnprintf` reports a negative count or a count not
smaller than the 1024-byte buffer, the message is silently dropped — no
dispatch into the application logger occurs (for any threshold and handle
state), and no truncated message is emitted. -/
theorem logv_format_overflow_silent_drop
    (l : RustLogger) (log_level : Int) (fmt : FormatOutcome)
    (h : fmt.n < 0 ∨ bufferSize ≤ fmt.n) :
    (l.LogvLeveled log_level fmt).dispatched = [] := by
  have hc : ¬(fmt.n > -1 ∧ fmt.n < bufferSize) := by omega
  by_cases ht : log_level < l.log_level <;>
    simp [RustLogger.LogvLeveled, ht, hc]

/-- Witness for claim C3: a formatted length of 2000 is dropped. -/
theorem logv_format_overflow_silent_drop_witness :
    ((2000 : Int) < 0 ∨ bufferSize ≤ (2000 : Int))
    ∧ ((RustLogger.mk 0 (some ())).LogvLeveled 1 ⟨2000, []⟩).dispatched = [] :=
  ⟨by decide,
    logv_format_overflow_silent_drop (RustLogger.mk 0 (some ())) 1 ⟨2000, []⟩
      (by decide)⟩

/-- Claim C4: the default `RocksDbLogger::log` never fails (it is total):
it lossily converts the bytes and forwards exactly one `log_str` call at
the same level, and the forwarded bytes are always valid UTF-8. -/
theorem default_log_lossy_total_valid (level : LogLevel) (msg : List Nat) :
    (RocksDbLogger.log level msg).level = level
    ∧ (RocksDbLogger.log level msg).msg = from_utf8_lossy msg
    ∧ validUtf8 (RocksDbLogger.log level msg).msg = true :=
  ⟨rfl, rfl, validUtf8_lossy msg⟩

/-- Claim C5: the `RustLogger` destructor makes exactly one boundary call,
reclaiming the boxed logger behind the stored handle, and afterwards the
stored handle is the null sentinel — so any leveled log call on the
post-destruction state dispatches nothing. -/
theorem destructor_frees_once_and_nulls_handle (l : RustLogger) :
    (l.destruct).freed = [l.rust_boxed_logger]
    ∧ (l.destruct).final.rust_boxed_logger = none
    ∧ ∀ (log_level : Int) (fmt : FormatOutcome),
        ((l.destruct).final.LogvLeveled log_level fmt).dispatched = [] := by
  refine ⟨rfl, rfl, fun log_level fmt => ?_⟩
  by_cases ht : log_level < l.log_level <;>
    by_cases hf : fmt.n > -1 ∧ fmt.n < bufferSize <;>
      simp [RustLogger.destruct, RustLogger.LogvLeveled, ht, hf]

/-- Claim C6: the default `RocksDbLogger::log_header` behaves identically
to `RocksDbLogger::log` at the Info level with the same text. -/
theorem log_header_defaults_to_info_log (header : List Nat) :
    RocksDbLogger.log_header header = RocksDbLogger.log LogLevel.Info header :=
  rfl

/-- Claim C7: the single-level `Logv` overload is treated as severity Info
(`InfoLogLevel::INFO_LEVEL`, code 1, which maps to `log::Level::Info`) and
delegates to the leveled overload, so the same threshold and formatting
rules apply. -/
theorem single_level_logv_is_info (l : RustLogger) (fmt : FormatOutcome) :
    l.Logv fmt = l.LogvLeveled INFO_LEVEL fmt
    ∧ INFO_LEVEL = 1
    ∧ mapLevel INFO_LEVEL = LogLevel.Info :=
  ⟨rfl, rfl, rfl⟩

/-- Claim C9: when the stored handle is null at dispatch time, the
boundary call checks it and silently skips — the application logger is not
invoked. -/
theorem null_handle_skips_dispatch
    (l : RustLogger) (log_level : Int) (fmt : FormatOutcome)
    (h : l.rust_boxed_logger = none) :
    (l.LogvLeveled log_level fmt).dispatched = [] := by
  by_cases ht : log_level < l.log_level <;>
    by_cases hf : fmt.n > -1 ∧ fmt.n < bufferSize <;>
      simp [RustLogger.LogvLeveled, ht, hf, h]

/-- Witness for claim C9: null handle, level above threshold, fitting
message — still no dispatch. -/
theorem null_handle_skips_dispatch_witness :
    (RustLogger.mk 0 none).rust_boxed_logger = none
    ∧ ((RustLogger.mk 0 none).LogvLeveled 1 ⟨2, [104, 105]⟩).dispatched = [] :=
  ⟨by decide,
    null_handle_skips_dispatch (RustLogger.mk 0 none) 1 ⟨2, [104, 105]⟩
      (by decide)⟩

/-- Claim C10: on bytes that are already valid UTF-8, the default
`RocksDbLogger::log` forwards to `log_str` exactly the input bytes (the
lossy conversion is the identity there). -/
theorem lossy_identity_on_valid_utf8 (level : LogLevel) (msg : List Nat)
    (h : validUtf8 msg = true) :
    (RocksDbLogger.log level msg).msg = msg :=
  lossy_id_of_valid h

/-- Witness for claim C10: the ASCII bytes of "hi". -/
theorem lossy_identity_on_valid_utf8_witness :
    validUtf8 [104, 105] = true
    ∧ (RocksDbLogger.log LogLevel.Info [104, 105]).msg = [104, 105] :=
  ⟨by simp [validUtf8, utf8Step],
    lossy_identity_on_valid_utf8 LogLevel.Info [104, 105]
      (by simp [validUtf8, utf8Step])⟩
